import Mathlib

/-!
Verification development for the module-specifier resolution core
(`src/module/internal/find-path.js`): a shallow embedding of `findPath`,
`tryExtensions`, `tryField`, `tryFilename`, `tryPackage` and
`resolveExports`, together with theorems checking the natural-language
specification against this embedding.

Modelling conventions:
- JS strings are Lean `String`s; JS string operations are implemented over
  the character list, which agrees with UTF-16 code-unit semantics for the
  basic-plane inputs the resolver manipulates, and keeps every definition
  evaluable by the kernel.
- The filesystem, and the repository collaborators whose source files are
  not provided, form an `FS` structure of pure functions (their contracts
  are taken from the spec where the source file is absent).
- A JS value that is either a string or `null` is the inductive `Res`;
  emitted deprecation warnings are collected in a list; the fatal
  MainNotFound throw is the `TPOut.mainNotFound` constructor.
-/

namespace FindPathModel

/-- JS `s.split(c)` for a one-character separator, over character lists:
always at least one (possibly empty) piece. -/
def splitOnChar (c : Char) : List Char → List (List Char)
  | [] => [[]]
  | x :: xs =>
    match splitOnChar c xs with
    | [] => [[]]
    | y :: ys => if x == c then [] :: y :: ys else (x :: y) :: ys

/-- String front-end of `splitOnChar`. -/
def strSplitOn (s : String) (c : Char) : List String :=
  (splitOnChar c s.toList).map String.mk

/-- JS `s.startsWith(p)`. -/
def jsStartsWith (s p : String) : Bool :=
  p.toList.isPrefixOf s.toList

/-- JS `s.endsWith(p)`. -/
def jsEndsWith (s p : String) : Bool :=
  p.toList.reverse.isPrefixOf s.toList.reverse

/-- JS `s.charCodeAt(i)`: `none` models the `NaN` produced for an
out-of-range index (every comparison against `NaN` is false). -/
def jsCharCodeAt (s : String) (i : Int) : Option Nat :=
  if 0 ≤ i ∧ i < (s.length : Int) then
    (s.toList.get? i.toNat).map Char.toNat
  else
    none

/-- JS `s.substring(a, b)`: both indices clamped to `[0, length]` and
swapped when `a > b`. -/
def jsSubstring (s : String) (a b : Nat) : String :=
  let len := s.length
  let a' := min a len
  let b' := min b len
  let lo := min a' b'
  let hi := max a' b'
  String.mk ((s.toList.drop lo).take (hi - lo))

/-- JS `s.replace(star, repl)` for the plain one-character pattern `*`:
only the first occurrence is replaced. -/
def replaceFirstStar (s repl : String) : String :=
  match strSplitOn s '*' with
  | [] => s
  | [_] => s
  | a :: b :: rest => a ++ repl ++ String.intercalate "*" (b :: rest)

/-- JS `condition.split(star)` followed by destructuring the first two
elements: the part before the first `*`, and — when a `*` is present — the
part between the first and second `*` (JS `undefined` is `none`). -/
def splitStar (s : String) : String × Option String :=
  match strSplitOn s '*' with
  | [] => (s, none)
  | [a] => (a, none)
  | a :: b :: _ => (a, some b)

/-- Model of Node `path.normalize` (external collaborator) for paths free
of `..` segments: drop empty and `.` segments, keep a leading separator. -/
def pathNorm (s : String) : String :=
  let lead := if jsStartsWith s "/" then "/" else ""
  let core :=
    String.intercalate "/" ((strSplitOn s '/').filter (fun seg => !(seg == "") && !(seg == ".")))
  if lead = "" && core = "" then "." else lead ++ core

/-- Model of Node `path.join(a, b)` (external collaborator of the source;
posix separator, no `..` handling, which the verified inputs never use). -/
def pathJoin (a b : String) : String :=
  pathNorm (if a = "" then b else if b = "" then a else a ++ "/" ++ b)

/-- Modelled from the spec: `src/path/is-absolute.js` is not among the
provided sources; posix rule — a path is absolute when it starts with the
separator. -/
def isAbsolutePath (s : String) : Bool :=
  jsStartsWith s "/"

/-- Model of Node `path.resolve(dir, rel)` for an absolute `dir` (external
collaborator of the source). -/
def resolvePath (dir rel : String) : String :=
  if isAbsolutePath rel then pathNorm rel else pathJoin dir rel

/-- Model of Node `path.basename` for the normalized paths used here. -/
def basenameP (s : String) : String :=
  ((strSplitOn s '/').getLast?).getD s

/-- Model of Node `path.dirname` for the normalized paths used here. -/
def dirnameP (s : String) : String :=
  match (strSplitOn s '/').dropLast with
  | [] => "."
  | [""] => "/"
  | segs => String.intercalate "/" segs

/-- Modelled from the spec: `src/path/is-ext-js.js` is not among the
provided sources; the recognized `.js` script-extension test. -/
def isExtJS (s : String) : Bool :=
  jsEndsWith s ".js"

/-- Modelled from the spec: `src/path/is-ext-mjs.js` is not among the
provided sources; the ESM-flag test is whether a path string ends in
`.mjs` (a non-string value is not an ESM-flagged path). -/
def isExtMJS (s : String) : Bool :=
  jsEndsWith s ".mjs"

/-- A package.json field value as seen through the descriptor: a string,
or any non-string JSON value (including an absent field, i.e. JS
`undefined`) — `tryField` treats every non-string alike. -/
inductive FieldVal where
  | str (s : String)
  | nonStr
deriving DecidableEq, Repr

/-- The recursive shape of a package `exports` declaration: a literal
target string, an ordered list of alternative target strings, or a
conditional mapping from keys to nested nodes in declaration order with
distinct keys. (Nested nodes inside list alternatives are a declared
non-goal of the source and are not modelled.) -/
inductive EJSON where
  | str (s : String)
  | arr (l : List String)
  | obj (m : List (String × EJSON))
deriving Repr

/-- JS truthiness of an `exports` node: only the empty string is falsy. -/
def EJSON.truthy : EJSON → Bool
  | .str s => !(s == "")
  | .arr _ => true
  | .obj _ => true

/-- First-match lookup of a key in a conditional mapping (JS property
access on an object with distinct keys). -/
def condLookup : List (String × EJSON) → String → Option EJSON
  | [], _ => none
  | (k, v) :: rest, key => if k == key then some v else condLookup rest key

/-- The test behind JS `if (exports[k])`: the key is present with a truthy
value. -/
def truthyLookup (m : List (String × EJSON)) (k : String) : Option EJSON :=
  match condLookup m k with
  | some v => if v.truthy then some v else none
  | none => none

/-- Modelled from the spec: `src/module/internal/read-package.js` is not
among the provided sources; the descriptor is the package.json restricted
to the requested fields plus the always-included `exports` declaration
(`none` at the `FS` level when the directory has no readable
package.json). -/
structure Package where
  get : String → FieldVal
  exports : Option EJSON

/-- The filesystem and the out-of-source collaborators, as pure functions.
`statFast` is modelled from the spec (`src/fs/stat-fast.js` absent):
`0` = file, `1` = directory, `-1` = missing. `statIsFile` models
`statSync` followed by the `Stats.prototype.isFile` test (`none` = stat
failed). `realpath` is modelled from the spec (`src/fs/realpath.js`
absent): the canonical path, or `""` on failure. `readPackage` is the
package-descriptor reader described above. -/
structure FS where
  statFast : String → Int
  statIsFile : String → Option Bool
  realpath : String → String
  existsSync : String → Bool
  readPackage : String → Option Package

/-- Process-wide configuration: the two symlink-policy booleans derived
from the environment flags, and the registered-extensions list backing
`keys(Module._extensions)`. `FLAGS.pendingDeprecation` is passed
separately to `tryPackage`, mirroring its single use site. -/
structure Config where
  resolveSymlinks : Bool
  resolveSymlinksMain : Bool
  defaultExts : List String

/-- A JS value that is either a string or `null` (the value returned by
`tryPackage`/`findPath`, since `resolveExports` can produce `null`). -/
inductive Res where
  | str (s : String)
  | null
deriving DecidableEq, Repr

/-- The JS comparison `foundPath !== ""` applied to a string-or-null
value: `null` is different from the empty string. -/
def resNeqEmpty : Res → Bool
  | .str s => !(s == "")
  | .null => true

/-- The ESM-flag test applied to a string-or-null value (the `isExtMJS`
helper guards on `typeof`, so `null` is not ESM-flagged). -/
def isExtMJSRes : Res → Bool
  | .str s => isExtMJS s
  | .null => false

/-- The dual classification used on candidate paths: the precise
stat-plus-isFile check for recognized script extensions, the fast probe
otherwise; result `0` = file, `1` = directory, other = missing. -/
def classifyRC (fs : FS) (p : String) : Int :=
  if isExtJS p || isExtMJS p then
    match fs.statIsFile p with
    | some b => if b then 0 else 1
    | none => -1
  else
    fs.statFast p

/-- Embedding of `tryFilename`: return the path when it classifies as a
file (canonicalized under the symlink policy), else the `""` sentinel. -/
def tryFilename (cfg : Config) (fs : FS) (filename : String) (isMain : Bool) : String :=
  if classifyRC fs filename ≠ 0 then ""
  else if (if isMain then cfg.resolveSymlinksMain else cfg.resolveSymlinks) then
    fs.realpath filename
  else
    filename

/-- Embedding of `tryExtensions`: probe `thePath + ext` for each extension
in caller order, returning the first non-empty `tryFilename` result. -/
def tryExtensions (cfg : Config) (fs : FS) (thePath : String) (exts : List String)
    (isMain : Bool) : String :=
  match exts with
  | [] => ""
  | e :: rest =>
    let found := tryFilename cfg fs (thePath ++ e) isMain
    if found ≠ "" then found else tryExtensions cfg fs thePath rest isMain

/-- Embedding of `tryField`: a non-string field value is skipped; a string
value is resolved against the directory and probed as an exact filename,
then with extensions, then as `value + "/index"` with extensions. -/
def tryField (cfg : Config) (fs : FS) (dirPath : String) (fv : FieldVal)
    (exts : List String) (isMain : Bool) : String :=
  match fv with
  | .nonStr => ""
  | .str fieldPath =>
    let thePath := resolvePath dirPath fieldPath
    let f1 := tryFilename cfg fs thePath isMain
    if f1 ≠ "" then f1
    else
      let f2 := tryExtensions cfg fs thePath exts isMain
      if f2 ≠ "" then f2
      else tryExtensions cfg fs (thePath ++ "/index") exts isMain

theorem sizeOf_condLookup {m : List (String × EJSON)} {k : String} {v : EJSON}
    (h : condLookup m k = some v) : sizeOf v < sizeOf m := by
  induction m with
  | nil => simp [condLookup] at h
  | cons kv rest ih =>
    obtain ⟨k', v'⟩ := kv
    simp only [condLookup] at h
    split at h
    · cases h
      simp
      omega
    · have := ih h
      simp
      omega

theorem sizeOf_truthyLookup {m : List (String × EJSON)} {k : String} {v : EJSON}
    (h : truthyLookup m k = some v) : sizeOf v < sizeOf m := by
  unfold truthyLookup at h
  cases hc : condLookup m k with
  | none => simp [hc] at h
  | some w =>
    simp [hc] at h
    rcases h with ⟨_, h⟩
    subst h
    exact sizeOf_condLookup hc

theorem sizeOf_mem_pair {m : List (String × EJSON)} {k : String} {v : EJSON}
    (h : (k, v) ∈ m) : sizeOf v < sizeOf m := by
  have h1 : sizeOf (k, v) < sizeOf m := List.sizeOf_lt_of_mem h
  have h2 : sizeOf v ≤ sizeOf (k, v) := by simp
  omega

/-- The wildcard-pattern match test built by the `conditions` mapping in
the source: the normalized subpath starts with the part before `*` and —
when a truthy suffix is declared — ends with it. -/
def patMatches (normalized cond : String) : Bool :=
  let p := splitStar cond
  jsStartsWith normalized p.1 &&
    (match p.2 with
     | none => true
     | some e => (e == "") || jsEndsWith normalized e)

/-- The `wellKnownConditions` list of the source. -/
def wellKnownConditions : List String :=
  ["import", "require", "node", "default", "."]

/-- The key filter building the source's `conditions` array: every key of
the mapping that is not a well-known condition name, in declaration
order. -/
def condFilter (m : List (String × EJSON)) : List (String × EJSON) :=
  m.filter (fun kv => !(wellKnownConditions.contains kv.1))

theorem sizeOf_find_condFilter {m : List (String × EJSON)} {p : String × EJSON → Bool}
    {kv : String × EJSON} (h : (condFilter m).find? p = some kv) :
    sizeOf kv.2 < sizeOf m := by
  have hmem : kv ∈ condFilter m := List.mem_of_find?_eq_some h
  have hmem2 : kv ∈ m := List.mem_of_mem_filter hmem
  obtain ⟨k, v⟩ := kv
  exact sizeOf_mem_pair hmem2

mutual

/-- Embedding of `resolveExports`: a literal string joins with the package
directory unconditionally; an alternatives list joins the first entry that
exists on disk (a falsy — empty — found entry yields `null`); a
conditional mapping tries `require`, `node`, `default` in order (recursing
into the first truthy one and returning its result), then `.` when the
subpath is empty, then the wildcard patterns; `none` models the JS `null`
returned when nothing applies. -/
def resolveExports (fs : FS) : EJSON → String → String → Option String
  | .str s, packagePath, _ => some (pathJoin packagePath s)
  | .arr l, packagePath, _ =>
    match l.find? (fun p => fs.existsSync (pathJoin packagePath p)) with
    | some p => if p == "" then none else some (pathJoin packagePath p)
    | none => none
  | .obj m, packagePath, subpath =>
    match h1 : truthyLookup m "require" with
    | some v => resolveExports fs v packagePath subpath
    | none =>
      match h2 : truthyLookup m "node" with
      | some v => resolveExports fs v packagePath subpath
      | none =>
        match h3 : truthyLookup m "default" with
        | some v => resolveExports fs v packagePath subpath
        | none =>
          match h4 : truthyLookup m "." with
          | some v =>
            if subpath == "" then resolveExports fs v packagePath subpath
            else wildcardResolve fs m packagePath subpath
          | none => wildcardResolve fs m packagePath subpath
termination_by e _ _ => sizeOf e
decreasing_by
  all_goals simp_wf
  all_goals first
  | omega
  | (have t := sizeOf_truthyLookup h1; omega)
  | (have t := sizeOf_truthyLookup h2; omega)
  | (have t := sizeOf_truthyLookup h3; omega)
  | (have t := sizeOf_truthyLookup h4; omega)

/-- The wildcard-pattern tail of `resolveExports`: when the subpath is
non-empty, find the first declared non-well-known pattern matching
`"./" + subpath`; on a match with a truthy declared suffix and a literal
string target, substitute the middle segment for the first `*` of the
target; otherwise recurse into the matched node with the same subpath. -/
def wildcardResolve (fs : FS) (m : List (String × EJSON)) (packagePath subpath : String) :
    Option String :=
  if subpath == "" then none
  else
    let normalized := "./" ++ subpath
    match h : (condFilter m).find? (fun kv => patMatches normalized kv.1) with
    | some kv =>
      let p := splitStar kv.1
      match p.2, kv.2 with
      | some e, .str s =>
        if e ≠ "" then
          some (pathJoin packagePath
            (replaceFirstStar s (jsSubstring normalized p.1.length (normalized.length - e.length))))
        else resolveExports fs kv.2 packagePath subpath
      | _, _ => resolveExports fs kv.2 packagePath subpath
    | none => none
termination_by sizeOf m
decreasing_by
  all_goals simp_wf
  all_goals first
  | omega
  | (have t := sizeOf_find_condFilter h; omega)

end

/-- Outcome of `tryPackage`/`findPath`: a returned string-or-null value,
or the thrown MainNotFound error carrying the request and the package.json
path. -/
inductive TPOut where
  | ok (v : Res)
  | mainNotFound (request jsonPath : String)
deriving DecidableEq, Repr

/-- One emitted DEP0128 deprecation warning: the loop's final field name
and its descriptor value (both `undefined` when the field list is empty)
and the package.json path the message quotes. -/
structure DepWarning where
  lastField : Option String
  value : Option FieldVal
  jsonPath : String
deriving DecidableEq, Repr

/-- The field loop of `tryPackage`: resolve each field in caller order via
`tryField`, returning the first non-empty result whose field is literally
`"main"` or whose resolved path is not ESM-flagged. -/
def tryFields (cfg : Config) (fs : FS) (dirPath : String) (json : Package)
    (exts : List String) (isMain : Bool) : List String → Option String
  | [] => none
  | f :: rest =>
    let found := tryField cfg fs dirPath (json.get f) exts isMain
    if !(found == "") && ((f == "main") || !(isExtMJS found)) then some found
    else tryFields cfg fs dirPath json exts isMain rest

/-- The exports step of `tryPackage`: when the descriptor has a truthy
exports declaration, run `resolveExports` on the request's portion past
the directory and — per the source's `foundPath !== "" && !isExtMJS(...)`
test — hand back any result that is not the empty string and not an
ESM-flagged path (note a `null` result passes that test). -/
def tryExportsStep (fs : FS) (json : Package) (request dirPath : String) : Option Res :=
  match json.exports with
  | some e =>
    if e.truthy then
      let r := resolveExports fs e dirPath (request.drop (dirPath.length + 1))
      let v : Res := match r with | some s => .str s | none => .null
      if resNeqEmpty v && !(isExtMJSRes v) then some v else none
    else none
  | none => none

/-- Embedding of `tryPackage`: no descriptor means a plain `dir/index`
extension probe; otherwise the field loop, then the exports step, then the
`dir/index` fallback, raising MainNotFound when that fails and emitting
the DEP0128 warning (under the pending-deprecation flag `pd`) when it
succeeds. -/
def tryPackage (cfg : Config) (fs : FS) (pd : Bool) (request dirPath : String)
    (fields exts : List String) (isMain : Bool) : TPOut × List DepWarning :=
  match fs.readPackage dirPath with
  | none => (.ok (.str (tryExtensions cfg fs (dirPath ++ "/index") exts isMain)), [])
  | some json =>
    match tryFields cfg fs dirPath json exts isMain fields with
    | some found => (.ok (.str found), [])
    | none =>
      match tryExportsStep fs json request dirPath with
      | some v => (.ok v, [])
      | none =>
        let jsonPath := dirPath ++ "/package.json"
        let found := tryExtensions cfg fs (dirPath ++ "/index") exts isMain
        if found = "" then (.mainNotFound request jsonPath, [])
        else
          (.ok (.str found),
            if pd then
              [⟨fields.getLast?, fields.getLast?.map json.get, jsonPath⟩]
            else [])

/-- The process-lifetime memoization cache, keyed by the composed string
key; write-once per key under the source's usage. -/
abbrev Cache := List (String × Res)

/-- Cache lookup (`cache.get`). -/
def cacheGet (c : Cache) (k : String) : Option Res :=
  match c with
  | [] => none
  | (k', v) :: rest => if k' == k then some v else cacheGet rest k

/-- Cache insertion (`cache.set`); the most recent binding wins. -/
def cacheSet (c : Cache) (k : String) (v : Res) : Cache :=
  (k, v) :: c

/-- The cache key composed by `findPath`: request and the paths, fields
and extensions lists — a one-element list contributes its sole element,
a longer (or empty) list its comma-joined form, an absent optional list
nothing — NUL-separated, with a trailing `"1"` when `isMain`. -/
def mkCacheKey (request : String) (paths : List String)
    (fieldsOpt extsOpt : Option (List String)) (isMain : Bool) : String :=
  let joinOne : List String → String := fun l =>
    match l with
    | [x] => x
    | _ => String.intercalate "," l
  let k1 := request ++ "\x00" ++ joinOne paths ++ "\x00"
  let k2 := k1 ++ (match fieldsOpt with | some fs => joinOne fs | none => "") ++ "\x00"
  let k3 := k2 ++ (match extsOpt with | some es => joinOne es | none => "") ++ "\x00"
  if isMain then k3 ++ "1" else k3

/-- The `trailingSlash` computation of `findPath`: the request explicitly
denotes a directory when its last segment is empty, `.` or `..` (detected
through up-to-three `charCodeAt` probes from the end; code 46 is `.`,
code 47 the separator). -/
def computeTrailingSlash (request : String) : Bool :=
  let n : Int := request.length
  if request.length = 0 then false
  else
    let code :=
      if jsCharCodeAt request (n - 1) = some 46 then
        if jsCharCodeAt request (n - 2) = some 46 then jsCharCodeAt request (n - 3)
        else jsCharCodeAt request (n - 2)
      else jsCharCodeAt request (n - 1)
    code = some 47

/-- The per-candidate body of the `findPath` loop: skip a non-directory
(relative case) or a failed canonicalization (`none` = continue to the
next search path), build the candidate path, classify it, accept a file
directly or via extension probing, and dispatch a directory to
`tryPackage`; `some` carries the outcome the loop returns (a value
passing the `!== ""` test, or the MainNotFound throw) together with the
warnings emitted while producing it. -/
def fpCandidate (cfg : Config) (fs : FS) (pd : Bool)
    (isAbs useRealpath trailingSlash isMain : Bool) (request : String)
    (fields exts : List String) (curPath : String) :
    Option (TPOut × List DepWarning) :=
  if !isAbs && fs.statFast curPath ≠ 1 then none
  else if useRealpath && fs.realpath curPath = "" then none
  else
    let base := if useRealpath then fs.realpath curPath else curPath
    let thePath :=
      if isAbs then (if useRealpath then base ++ "/" ++ request else base)
      else resolvePath base request
    let rc := classifyRC fs thePath
    let found1 :=
      if !trailingSlash && rc = 0 then
        (if useRealpath then fs.realpath thePath else thePath)
      else ""
    let found2 :=
      if !trailingSlash && found1 = "" then tryExtensions cfg fs thePath exts isMain
      else found1
    if rc = 1 && found2 = "" then
      match tryPackage cfg fs pd request thePath fields exts isMain with
      | (.mainNotFound r j, w) => some (.mainNotFound r j, w)
      | (.ok v, w) => if resNeqEmpty v then some (.ok v, w) else none
    else if found2 ≠ "" then some (.ok (.str found2), [])
    else none

/-- The candidate loop of `findPath` over the search paths: run
`fpCandidate` on each candidate in order; a produced `.ok` outcome is
cached under `cacheKey` and returned, a MainNotFound throw propagates with
the cache unwritten, and an exhausted list returns the `""` sentinel
uncached. -/
def fpLoop (cfg : Config) (fs : FS) (pd : Bool) (isAbs useRealpath trailingSlash isMain : Bool)
    (request : String) (fields exts : List String) (cacheKey : String) :
    List String → Cache → TPOut × Cache × List DepWarning
  | [], cache => (.ok (.str ""), cache, [])
  | curPath :: rest, cache =>
    match fpCandidate cfg fs pd isAbs useRealpath trailingSlash isMain request fields exts
      curPath with
    | some (.mainNotFound r j, w) => (.mainNotFound r j, cache, w)
    | some (.ok v, w) => (.ok v, cacheSet cache cacheKey v, w)
    | none =>
      fpLoop cfg fs pd isAbs useRealpath trailingSlash isMain request fields exts cacheKey
        rest cache

/-- Embedding of `findPath`: compose the cache key and return a cached
value when present; otherwise resolve `""` immediately for a relative
request with no search paths, apply the symlink policy and the absolute
request rewrite, default the fields and extensions lists, and run the
candidate loop. -/
def findPath (cfg : Config) (fs : FS) (pd : Bool) (request : String) (paths : List String)
    (isMain : Bool) (fieldsOpt extsOpt : Option (List String)) (cache : Cache) :
    TPOut × Cache × List DepWarning :=
  let cacheKey := mkCacheKey request paths fieldsOpt extsOpt isMain
  match cacheGet cache cacheKey with
  | some v => (.ok v, cache, [])
  | none =>
    let useRealpath := if isMain then cfg.resolveSymlinksMain else cfg.resolveSymlinks
    let isAbs := isAbsolutePath request
    if !isAbs && paths.length = 0 then (.ok (.str ""), cache, [])
    else
      let trailingSlash := computeTrailingSlash request
      let paths' := if isAbs then (if useRealpath then [dirnameP request] else [request]) else paths
      let request' := if isAbs && useRealpath then basenameP request else request
      let fields := fieldsOpt.getD ["main"]
      let exts := extsOpt.getD cfg.defaultExts
      fpLoop cfg fs pd isAbs useRealpath trailingSlash isMain request' fields exts cacheKey
        paths' cache

/-! ## Concrete scenarios used by the claim theorems -/

/-- The standard configuration for the scenarios: symlinks preserved (both
policy flags off) and `.js` as the sole registered extension. -/
def cfgStd : Config := ⟨false, false, [".js"]⟩

/-- A filesystem with nothing on it (used where `resolveExports` is
exercised purely on its mapping logic). -/
def fsNone : FS := ⟨fun _ => -1, fun _ => none, fun s => s, fun _ => false, fun _ => none⟩

/-- An exports declaration mapping only the exact subpath `./feature`. -/
def eFeature : EJSON := EJSON.obj [("./feature", EJSON.str "./dist/feature.js")]

/-- A descriptor with no usable fields and the `eFeature` exports map. -/
def pkgFeature : Package := ⟨fun _ => .nonStr, some eFeature⟩

/-- Scenario for C1: `/pkg` is a package carrying `pkgFeature`, and
`/pkg/index.js` exists on disk. -/
def fsC1 : FS :=
  ⟨fun p => if p == "/pkg" then 1 else -1,
   fun p => if p == "/pkg/index.js" then some true else none,
   fun s => s, fun _ => false,
   fun d => if d == "/pkg" then some pkgFeature else none⟩

/-- Scenario for C4: `/pkg` is a package carrying `pkgFeature`, and
nothing else exists — no field, no export target, no index file. -/
def fsC4 : FS :=
  ⟨fun p => if p == "/pkg" then 1 else -1,
   fun _ => none,
   fun s => s, fun _ => false,
   fun d => if d == "/pkg" then some pkgFeature else none⟩

/-- An exports declaration whose only key is the `import` condition. -/
def eImportOnly : EJSON := EJSON.obj [("import", EJSON.str "./esm.js")]

/-- A descriptor with no usable fields and the import-only exports map. -/
def pkgImportOnly : Package := ⟨fun _ => .nonStr, some eImportOnly⟩

/-- Scenario for C10: `/pkg` carries `pkgImportOnly`; both the import
target `/pkg/esm.js` and `/pkg/index.js` exist on disk. -/
def fsC10 : FS :=
  ⟨fun p => if p == "/pkg" then 1 else -1,
   fun p => if p == "/pkg/index.js" || p == "/pkg/esm.js" then some true else none,
   fun s => s, fun _ => true,
   fun d => if d == "/pkg" then some pkgImportOnly else none⟩

/-- Scenario for C7: the descriptor's `main` is the well-formed string
`"missing.js"` naming a file that does not exist, while `/pkg/index.js`
exists. -/
def pkgC7 : Package := ⟨fun f => if f == "main" then .str "missing.js" else .nonStr, none⟩

/-- The filesystem for the C7 scenario. -/
def fsC7 : FS :=
  ⟨fun p => if p == "/pkg" then 1 else -1,
   fun p => if p == "/pkg/index.js" then some true else none,
   fun s => s, fun _ => false,
   fun d => if d == "/pkg" then some pkgC7 else none⟩

/-- Scenario for C8: both `/d/f.mjs` and `/d/f.js` exist. -/
def fsC8 : FS :=
  ⟨fun _ => -1,
   fun p => if p == "/d/f.mjs" || p == "/d/f.js" then some true else none,
   fun s => s, fun _ => false, fun _ => none⟩

/-- Scenario for C9: the oddly-named directory `/x,/y` exists and contains
`r.js`, while neither `/x` nor `/y` exists. -/
def fsC9 : FS :=
  ⟨fun p => if p == "/x,/y" then 1 else -1,
   fun p => if p == "/x,/y/r.js" then some true else none,
   fun s => s, fun _ => false, fun _ => none⟩

/-- Scenario for C3: `/d` is a directory with no entries. -/
def fsC3 : FS :=
  ⟨fun p => if p == "/d" then 1 else -1, fun _ => none, fun s => s, fun _ => false,
   fun _ => none⟩

/-- The C3 scenario after `/d/r.js` appears on disk. -/
def fsC3' : FS :=
  ⟨fun p => if p == "/d" then 1 else -1,
   fun p => if p == "/d/r.js" then some true else none,
   fun s => s, fun _ => false, fun _ => none⟩

/-- Scenario for C5: the non-`"main"` field `module` names the existing
ESM file `dist/m.mjs`; `/pkg/index.js` also exists. -/
def pkgC5 : Package := ⟨fun f => if f == "module" then .str "dist/m.mjs" else .nonStr, none⟩

/-- The filesystem for the C5 scenario. -/
def fsC5 : FS :=
  ⟨fun p => if p == "/pkg" then 1 else -1,
   fun p => if p == "/pkg/dist/m.mjs" || p == "/pkg/index.js" then some true else none,
   fun s => s, fun _ => false,
   fun d => if d == "/pkg" then some pkgC5 else none⟩

/-- The C6 conditional mapping: a truthy `require` condition that resolves
to nothing, next to a `default` condition that would resolve. -/
def mC6 : List (String × EJSON) :=
  [("require", EJSON.obj [("import", EJSON.str "./a.js")]), ("default", EJSON.str "./b.js")]

/-- Specification-side restatement for C8: the first extension in caller
order whose probe result is non-empty, mapped to that result (compared
against the loop-shaped `tryExtensions` translated from the source). -/
def firstExtHit (cfg : Config) (fs : FS) (base : String) (exts : List String)
    (isMain : Bool) : Option String :=
  (exts.find? (fun e => !(tryFilename cfg fs (base ++ e) isMain == ""))).map
    (fun e => tryFilename cfg fs (base ++ e) isMain)

/-- The acceptance test of the field loop, for C5: the field resolves
non-empty and is literally `"main"` or its resolved path is not
ESM-flagged. -/
def acceptField (cfg : Config) (fs : FS) (dirPath : String) (json : Package)
    (exts : List String) (isMain : Bool) (f : String) : Bool :=
  let found := tryField cfg fs dirPath (json.get f) exts isMain
  !(found == "") && ((f == "main") || !(isExtMJS found))

/-- Specification-side restatement for C5: the first field in caller order
passing the acceptance test, mapped to its resolved path. -/
def firstAcceptedField (cfg : Config) (fs : FS) (dirPath : String) (json : Package)
    (exts : List String) (isMain : Bool) (fields : List String) : Option String :=
  (fields.find? (acceptField cfg fs dirPath json exts isMain)).map
    (fun f => tryField cfg fs dirPath (json.get f) exts isMain)

/-- Scenario for the C3 witness: `/w` is a directory containing `m.js`. -/
def fsW3 : FS :=
  ⟨fun p => if p == "/w" then 1 else -1,
   fun p => if p == "/w/m.js" then some true else none,
   fun s => s, fun _ => false, fun _ => none⟩

/-! ## Claim theorems -/

/-- C2. The claim states that the exports map `{"./lib/*": "./dist/*.js"}`
resolves subpath `lib/foo` to `<dir>/dist/foo.js`. The code instead
returns `<dir>/dist/*.js` with a literal asterisk: `"./lib/*".split("*")`
yields the empty-string suffix, which is falsy, so the substitution guard
`matchedCondition.endsWith && ...` fails and the literal target is joined
unsubstituted. The second conjunct shows the very same substitution
machinery does fire for a pattern with a non-empty suffix (`./lib/*.js`),
so the trailing-star behavior is a slip, not a design: the code
contradicts the documented intent at the claim's exact input. -/
theorem claim_C2_trailing_star_substitution_skipped :
    resolveExports fsNone (.obj [("./lib/*", .str "./dist/*.js")]) "/pkg" "lib/foo" =
      some "/pkg/dist/*.js"
    ∧ resolveExports fsNone (.obj [("./lib/*.js", .str "./dist/*.js")]) "/pkg" "lib/foo.js" =
      some "/pkg/dist/foo.js"
    ∧ ("/pkg/dist/*.js" : String) ≠ "/pkg/dist/foo.js" := by
  refine ⟨?_, ?_, by decide⟩
  · rw [resolveExports.eq_def]
    show wildcardResolve fsNone [("./lib/*", EJSON.str "./dist/*.js")] "/pkg" "lib/foo" =
      some "/pkg/dist/*.js"
    rw [wildcardResolve.eq_def]
    show resolveExports fsNone (EJSON.str "./dist/*.js") "/pkg" "lib/foo" =
      some "/pkg/dist/*.js"
    rw [resolveExports.eq_def]
    rfl
  · rw [resolveExports.eq_def]
    show wildcardResolve fsNone [("./lib/*.js", EJSON.str "./dist/*.js")] "/pkg" "lib/foo.js" =
      some "/pkg/dist/foo.js"
    rw [wildcardResolve.eq_def]
    rfl

/-- Evaluation of `resolveExports` on the `eFeature` mapping at the
undeclared subpath `other` (the subpath is exactly the request's portion
past the directory, as `tryPackage` computes it): nothing matches, so the
JS function returns `null`. -/
theorem resolveExports_eFeature_other (fs : FS) :
    resolveExports fs eFeature "/pkg" ("/pkg/other".drop ("/pkg".length + 1)) = none := by
  show resolveExports fs eFeature "/pkg" "other" = none
  rw [show eFeature = EJSON.obj [("./feature", EJSON.str "./dist/feature.js")] from rfl]
  rw [resolveExports.eq_def]
  show wildcardResolve fs [("./feature", EJSON.str "./dist/feature.js")] "/pkg" "other" = none
  rw [wildcardResolve.eq_def]
  rfl

/-- C1. The claim states that when the exports resolution fails,
`tryPackage` falls back to probing `dir/index` and its result is always a
path string or the empty sentinel. On the code: `/pkg` declares
`{"exports": {"./feature": "./dist/feature.js"}}` and `/pkg/index.js`
exists, yet requesting the undeclared subpath `other` makes `tryPackage`
return the JS `null` (which passed the `foundPath !== ""` test) without
ever probing the index — the second conjunct shows the skipped index probe
would have succeeded, and the third that `null` is not a string value. -/
theorem claim_C1_exports_failure_returns_null :
    tryPackage cfgStd fsC1 false "/pkg/other" "/pkg" ["main"] [".js"] false =
      (.ok Res.null, [])
    ∧ tryExtensions cfgStd fsC1 ("/pkg" ++ "/index") [".js"] false = "/pkg/index.js"
    ∧ ∀ s : String, Res.null ≠ Res.str s := by
  refine ⟨?_, by decide, by intro s h; cases h⟩
  have hres := resolveExports_eFeature_other fsC1
  have he : tryExportsStep fsC1 pkgFeature "/pkg/other" "/pkg" = some Res.null := by
    simp only [tryExportsStep, pkgFeature, EJSON.truthy, hres]
    rfl
  unfold tryPackage
  rw [show fsC1.readPackage "/pkg" = some pkgFeature from rfl]
  dsimp only
  rw [show tryFields cfgStd fsC1 "/pkg" pkgFeature [".js"] false ["main"] = none from rfl]
  dsimp only
  rw [he]

/-- C4. The claim states MainNotFound is raised if and only if the
directory has a descriptor and no field, no exports resolution and no
`dir/index` probe yields a path. On the code, the `fsC4` scenario
satisfies every condition of that right-hand side — descriptor present
(conjunct 2), field loop empty (conjunct 3), exports resolution failed
(conjunct 4), index probe empty (conjunct 5) — yet `tryPackage` returns
the JS `null` instead of raising (conjunct 1): the `null` escapes through
the `foundPath !== ""` acceptance test before the fallback-and-raise code
is reached. -/
theorem claim_C4_mainNotFound_not_raised :
    tryPackage cfgStd fsC4 false "/pkg/other" "/pkg" ["main"] [".js"] false =
      (.ok Res.null, [])
    ∧ fsC4.readPackage "/pkg" = some pkgFeature
    ∧ tryFields cfgStd fsC4 "/pkg" pkgFeature [".js"] false ["main"] = none
    ∧ resolveExports fsC4 eFeature "/pkg" ("/pkg/other".drop ("/pkg".length + 1)) = none
    ∧ tryExtensions cfgStd fsC4 ("/pkg" ++ "/index") [".js"] false = "" := by
  have hres := resolveExports_eFeature_other fsC4
  refine ⟨?_, rfl, rfl, hres, rfl⟩
  have he : tryExportsStep fsC4 pkgFeature "/pkg/other" "/pkg" = some Res.null := by
    simp only [tryExportsStep, pkgFeature, EJSON.truthy, hres]
    rfl
  unfold tryPackage
  rw [show fsC4.readPackage "/pkg" = some pkgFeature from rfl]
  dsimp only
  rw [show tryFields cfgStd fsC4 "/pkg" pkgFeature [".js"] false ["main"] = none from rfl]
  dsimp only
  rw [he]

/-- Evaluation of `resolveExports` on the import-only mapping at the
subpath `sub`: the `import` key is filtered out of the wildcard-pattern
candidates and is never consulted as a condition, so the result is the JS
`null`. -/
theorem resolveExports_importOnly_sub (fs : FS) :
    resolveExports fs eImportOnly "/pkg" ("/pkg/sub".drop ("/pkg".length + 1)) = none := by
  show resolveExports fs eImportOnly "/pkg" "sub" = none
  rw [show eImportOnly = EJSON.obj [("import", EJSON.str "./esm.js")] from rfl]
  rw [resolveExports.eq_def]
  show wildcardResolve fs [("import", EJSON.str "./esm.js")] "/pkg" "sub" = none
  rw [wildcardResolve.eq_def]
  rfl

/-- C10. The first conjunct confirms the claim's core: a mapping whose
only key is `import` yields no resolution — the key is neither consulted
as a condition nor matched as a wildcard pattern (its target `/pkg/esm.js`
exists on disk and is still not chosen). The claim's tail — "resolution
falls through to the index fallback or MainNotFound" — is what fails:
`tryPackage` returns the JS `null` (conjunct 2) without probing the
existing `/pkg/index.js` (conjunct 3 shows that probe would have
succeeded). -/
theorem claim_C10_import_only_exports :
    resolveExports fsC10 eImportOnly "/pkg" ("/pkg/sub".drop ("/pkg".length + 1)) = none
    ∧ tryPackage cfgStd fsC10 false "/pkg/sub" "/pkg" ["main"] [".js"] false =
      (.ok Res.null, [])
    ∧ tryExtensions cfgStd fsC10 ("/pkg" ++ "/index") [".js"] false = "/pkg/index.js" := by
  have hres := resolveExports_importOnly_sub fsC10
  refine ⟨hres, ?_, by decide⟩
  have he : tryExportsStep fsC10 pkgImportOnly "/pkg/sub" "/pkg" = some Res.null := by
    simp only [tryExportsStep, pkgImportOnly, EJSON.truthy, hres]
    rfl
  unfold tryPackage
  rw [show fsC10.readPackage "/pkg" = some pkgImportOnly from rfl]
  dsimp only
  rw [show tryFields cfgStd fsC10 "/pkg" pkgImportOnly [".js"] false ["main"] = none from rfl]
  dsimp only
  rw [he]

/-- C9. The cache key is not injective over argument tuples: the
single-element path list containing the comma-bearing string matches the
comma-join of the two-element list (conjunct 1) while the tuples differ
(conjunct 2); behaviorally, after a call with the first tuple populates
the cache, the second tuple is served that cached result (conjunct 3)
although its own from-scratch resolution is the not-found sentinel
(conjunct 4). -/
theorem claim_C9_cache_key_not_injective :
    mkCacheKey "r" ["/x,/y"] none none false = mkCacheKey "r" ["/x", "/y"] none none false
    ∧ (["/x,/y"] : List String) ≠ ["/x", "/y"]
    ∧ (findPath cfgStd fsC9 false "r" ["/x", "/y"] false none none
        (findPath cfgStd fsC9 false "r" ["/x,/y"] false none none []).2.1).1 =
      .ok (.str "/x,/y/r.js")
    ∧ (findPath cfgStd fsC9 false "r" ["/x", "/y"] false none none []).1 = .ok (.str "") := by
  refine ⟨by decide, by decide, by decide, by decide⟩

/-- C3 counterexample. The claim asserts the result for a cache key —
including a not-found result — is computed at most once and the second
call is a pure cache hit. On the code, a not-found resolution is never
written to the cache: the first call returns the sentinel and leaves the
cache empty (conjunct 1), so a second call with identical arguments
recomputes against the filesystem — as conjunct 2 exhibits, the same call
observes a filesystem change, which a pure cache hit could not. -/
theorem claim_C3_counterexample_notfound_not_cached :
    findPath cfgStd fsC3 false "r" ["/d"] false none none [] = (.ok (.str ""), [], [])
    ∧ (findPath cfgStd fsC3' false "r" ["/d"] false none none []).1 = .ok (.str "/d/r.js") := by
  refine ⟨by decide, by decide⟩

/-- C7 counterexample. The claim asserts the deprecation warning is
emitted only if some non-`"main"` field had a malformed (non-string)
value. On the code, the scenario's only field is `main` and its value is
the well-formed string `"missing.js"` (conjunct 2) — there is no
malformed non-`"main"` field at all — yet with the deprecation flag on the
warning is emitted as soon as resolution succeeds through the index
fallback (conjunct 1). -/
theorem claim_C7_counterexample_warning_without_malformed_field :
    tryPackage cfgStd fsC7 true "/pkg" "/pkg" ["main"] [".js"] false =
      (.ok (.str "/pkg/index.js"),
        [⟨some "main", some (FieldVal.str "missing.js"), "/pkg/package.json"⟩])
    ∧ pkgC7.get "main" = FieldVal.str "missing.js" := by
  refine ⟨by decide, by decide⟩

/-- C8. The extension probe is first-match in caller order: `tryExtensions`
coincides with the specification-side `firstExtHit` (defaulting to the
`""` sentinel), and with `[".mjs", ".js"]` and both files present on disk
the `.mjs` path is selected. -/
theorem claim_C8_extension_order_first_match :
    (∀ (cfg : Config) (fs : FS) (base : String) (exts : List String) (isMain : Bool),
      tryExtensions cfg fs base exts isMain = (firstExtHit cfg fs base exts isMain).getD "")
    ∧ tryExtensions cfgStd fsC8 "/d/f" [".mjs", ".js"] false = "/d/f.mjs" := by
  refine ⟨?_, by decide⟩
  intro cfg fs base exts isMain
  induction exts with
  | nil => rfl
  | cons e rest ih =>
    cases h : tryFilename cfg fs (base ++ e) isMain == "" with
    | true =>
      have h' : tryFilename cfg fs (base ++ e) isMain = "" := by simpa using h
      simp [tryExtensions, firstExtHit, List.find?, h, h', ih]
    | false =>
      have h' : ¬ tryFilename cfg fs (base ++ e) isMain = "" := by simpa using h
      simp [tryExtensions, firstExtHit, List.find?, h, h']

/-- The field loop coincides with its specification-side first-match
reading. -/
theorem tryFields_eq_firstAcceptedField (cfg : Config) (fs : FS) (dirPath : String)
    (json : Package) (exts : List String) (isMain : Bool) (fields : List String) :
    tryFields cfg fs dirPath json exts isMain fields =
      firstAcceptedField cfg fs dirPath json exts isMain fields := by
  induction fields with
  | nil => rfl
  | cons f rest ih =>
    cases h : acceptField cfg fs dirPath json exts isMain f with
    | true =>
      have hc : (!(tryField cfg fs dirPath (json.get f) exts isMain == "") &&
          ((f == "main") || !(isExtMJS (tryField cfg fs dirPath (json.get f) exts isMain)))) =
          true := h
      simp [tryFields, firstAcceptedField, List.find?, h, hc]
    | false =>
      have hc : (!(tryField cfg fs dirPath (json.get f) exts isMain == "") &&
          ((f == "main") || !(isExtMJS (tryField cfg fs dirPath (json.get f) exts isMain)))) =
          false := h
      simp [tryFields, firstAcceptedField, List.find?, h, hc]
      simpa [firstAcceptedField] using ih

/-- C5. The field loop returns the resolved path of the first field in
caller order if and only if that field resolves non-empty and is
literally `"main"` or its resolved path is not an `.mjs` file (conjunct
1, via the specification-side first-match function); and a field failing
that acceptance test — in particular a non-`"main"` field resolving to an
`.mjs` file — is skipped: `tryPackage`'s returned outcome with that field
prepended equals the outcome without it, so resolution continues to later
fields, the exports declaration and the index fallback (conjunct 2). -/
theorem claim_C5_field_accept_iff :
    (∀ (cfg : Config) (fs : FS) (dirPath : String) (json : Package) (exts : List String)
      (isMain : Bool) (fields : List String),
      tryFields cfg fs dirPath json exts isMain fields =
        firstAcceptedField cfg fs dirPath json exts isMain fields)
    ∧ ∀ (cfg : Config) (fs : FS) (pd : Bool) (request dirPath : String) (json : Package)
        (exts : List String) (isMain : Bool) (f : String) (fields : List String),
        fs.readPackage dirPath = some json →
        acceptField cfg fs dirPath json exts isMain f = false →
        (tryPackage cfg fs pd request dirPath (f :: fields) exts isMain).1 =
          (tryPackage cfg fs pd request dirPath fields exts isMain).1 := by
  refine ⟨tryFields_eq_firstAcceptedField, ?_⟩
  intro cfg fs pd request dirPath json exts isMain f fields hj hacc
  have hskip : tryFields cfg fs dirPath json exts isMain (f :: fields) =
      tryFields cfg fs dirPath json exts isMain fields := by
    have hc : (!(tryField cfg fs dirPath (json.get f) exts isMain == "") &&
        ((f == "main") || !(isExtMJS (tryField cfg fs dirPath (json.get f) exts isMain)))) =
        false := hacc
    simp [tryFields, hc]
  unfold tryPackage
  rw [hj]
  dsimp only
  rw [hskip]
  cases htf : tryFields cfg fs dirPath json exts isMain fields with
  | some found => rfl
  | none =>
    dsimp only
    cases hte : tryExportsStep fs json request dirPath with
    | some v => rfl
    | none =>
      dsimp only
      by_cases hfound : tryExtensions cfg fs (dirPath ++ "/index") exts isMain = ""
      · simp [hfound]
      · simp [hfound]

/-- C5 witness: in the `fsC5` scenario the non-`"main"` field `module`
resolves to the existing ESM file `/pkg/dist/m.mjs`, fails the acceptance
test, and prepending it to the field list leaves `tryPackage`'s outcome
unchanged (both resolve to the index fallback). -/
theorem claim_C5_witness :
    tryField cfgStd fsC5 "/pkg" (pkgC5.get "module") [".js"] false = "/pkg/dist/m.mjs"
    ∧ isExtMJS "/pkg/dist/m.mjs" = true
    ∧ (tryPackage cfgStd fsC5 false "/pkg" "/pkg" ["module"] [".js"] false).1 =
        (tryPackage cfgStd fsC5 false "/pkg" "/pkg" [] [".js"] false).1 :=
  ⟨by decide, by decide,
    claim_C5_field_accept_iff.2 cfgStd fsC5 false "/pkg" "/pkg" pkgC5 [".js"] false "module" []
      rfl (by decide)⟩

/-- C6 counterexample. The claim reads the conditional step as recursing
into the first present condition *that yields a result*. On the code, the
mapping `mC6` has a truthy `require` condition whose recursive resolution
yields nothing, next to a `default` condition that would resolve to
`/pkg/b.js` (conjuncts 2 and 3) — yet the overall result is the JS `null`
(conjunct 1): the code commits to the first truthy condition and returns
its result unconditionally, never retrying later conditions. -/
theorem claim_C6_counterexample_no_retry :
    resolveExports fsNone (EJSON.obj mC6) "/pkg" "" = none
    ∧ truthyLookup mC6 "default" = some (EJSON.str "./b.js")
    ∧ resolveExports fsNone (EJSON.str "./b.js") "/pkg" "" = some "/pkg/b.js" := by
  refine ⟨?_, rfl, ?_⟩
  · rw [show (EJSON.obj mC6) =
      EJSON.obj [("require", EJSON.obj [("import", EJSON.str "./a.js")]),
        ("default", EJSON.str "./b.js")] from rfl]
    rw [resolveExports.eq_def]
    show resolveExports fsNone (EJSON.obj [("import", EJSON.str "./a.js")]) "/pkg" "" = none
    rw [resolveExports.eq_def]
    show wildcardResolve fsNone [("import", EJSON.str "./a.js")] "/pkg" "" = none
    rw [wildcardResolve.eq_def]
    rfl
  · rw [resolveExports.eq_def]
    rfl

/-- C6 amended: the conditional step applies the precedence
`require` > `node` > `default` over *truthy* condition values, recursing
into the first truthy one and returning its result unconditionally (even
when that recursion yields nothing); the `.` key applies only when the
subpath is empty and the prior conditions are absent or falsy; with a
non-empty subpath the remaining keys are handed to the wildcard-pattern
step; with an empty subpath and no applicable condition the result is the
JS `null`. -/
theorem claim_C6_condition_precedence (fs : FS) (m : List (String × EJSON)) (pkg sub : String) :
    (∀ v, truthyLookup m "require" = some v →
      resolveExports fs (.obj m) pkg sub = resolveExports fs v pkg sub)
    ∧ (truthyLookup m "require" = none → ∀ v, truthyLookup m "node" = some v →
      resolveExports fs (.obj m) pkg sub = resolveExports fs v pkg sub)
    ∧ (truthyLookup m "require" = none → truthyLookup m "node" = none →
      ∀ v, truthyLookup m "default" = some v →
      resolveExports fs (.obj m) pkg sub = resolveExports fs v pkg sub)
    ∧ (truthyLookup m "require" = none → truthyLookup m "node" = none →
      truthyLookup m "default" = none → sub = "" → ∀ v, truthyLookup m "." = some v →
      resolveExports fs (.obj m) pkg sub = resolveExports fs v pkg sub)
    ∧ (truthyLookup m "require" = none → truthyLookup m "node" = none →
      truthyLookup m "default" = none → sub ≠ "" →
      resolveExports fs (.obj m) pkg sub = wildcardResolve fs m pkg sub)
    ∧ (truthyLookup m "require" = none → truthyLookup m "node" = none →
      truthyLookup m "default" = none → truthyLookup m "." = none → sub = "" →
      resolveExports fs (.obj m) pkg sub = none) := by
  refine ⟨?_, ?_, ?_, ?_, ?_, ?_⟩
  · intro v hr
    rw [resolveExports.eq_def]
    dsimp only
    rw [hr]
  · intro hr v hn
    rw [resolveExports.eq_def]
    dsimp only
    rw [hr]
    dsimp only
    rw [hn]
  · intro hr hn v hd
    rw [resolveExports.eq_def]
    dsimp only
    rw [hr]
    dsimp only
    rw [hn]
    dsimp only
    rw [hd]
  · intro hr hn hd hsub v hdot
    rw [resolveExports.eq_def]
    dsimp only
    rw [hr]
    dsimp only
    rw [hn]
    dsimp only
    rw [hd]
    dsimp only
    rw [hdot]
    dsimp only
    simp [hsub]
  · intro hr hn hd hsub
    rw [resolveExports.eq_def]
    dsimp only
    rw [hr]
    dsimp only
    rw [hn]
    dsimp only
    rw [hd]
    dsimp only
    cases hdot : truthyLookup m "." with
    | some v =>
      dsimp only
      simp [hsub]
    | none => rfl
  · intro hr hn hd hdot hsub
    rw [resolveExports.eq_def]
    dsimp only
    rw [hr]
    dsimp only
    rw [hn]
    dsimp only
    rw [hd]
    dsimp only
    rw [hdot]
    dsimp only
    rw [wildcardResolve.eq_def]
    simp [hsub]

/-- C6 witness: with only a `node` condition declared, `resolveExports`
recurses into it — and the target resolves to `/pkg/n.js`. -/
theorem claim_C6_witness :
    resolveExports fsNone (EJSON.obj [("node", EJSON.str "./n.js")]) "/pkg" "x" =
      some "/pkg/n.js" := by
  have h := (claim_C6_condition_precedence fsNone [("node", EJSON.str "./n.js")] "/pkg" "x").2.1
    rfl (EJSON.str "./n.js") rfl
  rw [h, resolveExports.eq_def]
  rfl

/-- C7 amended: the DEP0128 warning is emitted if and only if the
pending-deprecation flag is set and `tryPackage` returns through the
successful `dir/index` fallback with a descriptor present (no field
accepted and no exports-step return) — no malformedness of any field is
consulted; and the flag (hence the emission) never changes the returned
outcome. -/
theorem claim_C7_warning_iff_index_fallback (cfg : Config) (fs : FS) (pd : Bool)
    (request dirPath : String) (fields exts : List String) (isMain : Bool) :
    ((tryPackage cfg fs pd request dirPath fields exts isMain).2 ≠ [] ↔
      (pd = true ∧ ∃ json, fs.readPackage dirPath = some json ∧
        tryFields cfg fs dirPath json exts isMain fields = none ∧
        tryExportsStep fs json request dirPath = none ∧
        tryExtensions cfg fs (dirPath ++ "/index") exts isMain ≠ ""))
    ∧ ∀ pd₂ : Bool, (tryPackage cfg fs pd request dirPath fields exts isMain).1 =
        (tryPackage cfg fs pd₂ request dirPath fields exts isMain).1 := by
  unfold tryPackage
  cases hj : fs.readPackage dirPath with
  | none => simp [hj]
  | some json =>
    cases htf : tryFields cfg fs dirPath json exts isMain fields with
    | some found => simp [hj, htf]
    | none =>
      cases hte : tryExportsStep fs json request dirPath with
      | some v => simp [hj, htf, hte]
      | none =>
        by_cases hfound : tryExtensions cfg fs (dirPath ++ "/index") exts isMain = ""
        · simp [hj, htf, hte, hfound]
        · cases pd with
          | true => simp [hj, htf, hte, hfound]
          | false => simp [hj, htf, hte, hfound]

/-- C7 witness: in the `fsC7` scenario with the flag on, the warning list
is non-empty. -/
theorem claim_C7_witness :
    (tryPackage cfgStd fsC7 true "/pkg" "/pkg" ["main"] [".js"] false).2 ≠ [] :=
  (claim_C7_warning_iff_index_fallback cfgStd fsC7 true "/pkg" "/pkg" ["main"] [".js"]
    false).1.mpr ⟨rfl, pkgC7, rfl, rfl, rfl, by decide⟩

/-- Looking up the key just written returns the written value. -/
theorem cacheGet_cacheSet (c : Cache) (k : String) (v : Res) :
    cacheGet (cacheSet c k v) k = some v := by
  simp [cacheGet, cacheSet]

/-- A `findPath` call whose key is in the cache is a pure hit: it returns
the cached value, leaves the cache unchanged, emits nothing, and never
consults the filesystem. -/
theorem findPath_cache_hit (cfg : Config) (fs : FS) (pd : Bool) (request : String)
    (paths : List String) (isMain : Bool) (fieldsOpt extsOpt : Option (List String))
    (cache : Cache) (v : Res)
    (h : cacheGet cache (mkCacheKey request paths fieldsOpt extsOpt isMain) = some v) :
    findPath cfg fs pd request paths isMain fieldsOpt extsOpt cache = (.ok v, cache, []) := by
  unfold findPath
  dsimp only
  rw [h]

set_option maxHeartbeats 1000000 in
/-- When the candidate loop returns a value passing the `!== ""` test, the
returned cache is the input cache extended at the loop's key with exactly
that value. -/
theorem fpLoop_ok_cacheSet (cfg : Config) (fs : FS) (pd : Bool)
    (isAbs useRealpath trailingSlash isMain : Bool) (request : String)
    (fields exts : List String) (key : String) :
    ∀ (ps : List String) (cache : Cache) (v : Res) (c' : Cache) (w : List DepWarning),
      fpLoop cfg fs pd isAbs useRealpath trailingSlash isMain request fields exts key
        ps cache = (.ok v, c', w) →
      resNeqEmpty v = true → c' = cacheSet cache key v := by
  intro ps
  induction ps with
  | nil =>
    intro cache v c' w h hv
    rw [fpLoop.eq_def] at h
    dsimp only at h
    simp only [Prod.mk.injEq, TPOut.ok.injEq] at h
    obtain ⟨h1, h2, h3⟩ := h
    rw [← h1] at hv
    simp [resNeqEmpty] at hv
  | cons p rest ih =>
    intro cache v c' w h hv
    rw [fpLoop.eq_def] at h
    dsimp only at h
    split at h
    · simp at h
    · simp only [Prod.mk.injEq, TPOut.ok.injEq] at h
      obtain ⟨h1, h2, h3⟩ := h
      rw [← h1, ← h2]
    · exact ih cache v c' w h hv

/-- Projection form of `fpLoop_ok_cacheSet`: when the loop's outcome is a
value passing the `!== ""` test, the key was written into the cache. -/
theorem fpLoop_writes (cfg : Config) (fs : FS) (pd : Bool)
    (isAbs useRealpath trailingSlash isMain : Bool) (request : String)
    (fields exts : List String) (key : String) (ps : List String) (cache : Cache) (v : Res)
    (h : (fpLoop cfg fs pd isAbs useRealpath trailingSlash isMain request fields exts key
      ps cache).1 = .ok v)
    (hv : resNeqEmpty v = true) :
    cacheGet (fpLoop cfg fs pd isAbs useRealpath trailingSlash isMain request fields exts key
      ps cache).2.1 key = some v := by
  rcases hfp : fpLoop cfg fs pd isAbs useRealpath trailingSlash isMain request fields exts key
    ps cache with ⟨out, c', w2⟩
  rw [hfp] at h
  dsimp only at h ⊢
  rw [h] at hfp
  rw [fpLoop_ok_cacheSet cfg fs pd isAbs useRealpath trailingSlash isMain request fields exts
    key ps cache v c' w2 hfp hv]
  exact cacheGet_cacheSet cache key v

/-- After a `findPath` call returns a value passing the `!== ""` test, the
resulting cache holds that value under the call's key. -/
theorem findPath_writes_cache (cfg : Config) (fs : FS) (pd : Bool) (request : String)
    (paths : List String) (isMain : Bool) (fieldsOpt extsOpt : Option (List String))
    (cache : Cache) (v : Res)
    (h : (findPath cfg fs pd request paths isMain fieldsOpt extsOpt cache).1 = .ok v)
    (hv : resNeqEmpty v = true) :
    cacheGet (findPath cfg fs pd request paths isMain fieldsOpt extsOpt cache).2.1
      (mkCacheKey request paths fieldsOpt extsOpt isMain) = some v := by
  unfold findPath at h ⊢
  dsimp only at h ⊢
  cases hg : cacheGet cache (mkCacheKey request paths fieldsOpt extsOpt isMain) with
  | some w =>
    rw [hg] at h
    dsimp only at h ⊢
    injection h with h2
    cases h2
    exact hg
  | none =>
    rw [hg] at h
    dsimp only at h ⊢
    split at h
    · dsimp only at h
      injection h with h2
      rw [← h2] at hv
      simp [resNeqEmpty] at hv
    · rename_i hc
      rw [if_neg hc]
      exact fpLoop_writes cfg fs pd _ _ _ _ _ _ _ _ _ cache v h hv

/-- C3 amended: resolution is deterministic, and any result passing the
`foundPath !== ""` test (a path string or the JS `null`, but not the
not-found sentinel) is written to the cache and is thereafter immutable —
a repeat call with identical arguments is a pure cache hit that returns
the same value, leaves the cache unchanged, emits no warning and consults
neither the filesystem nor the flags (`fs₂`, `pd₂` arbitrary). The `""`
not-found result is exempt: the source only writes the cache under
`foundPath !== ""`, so a not-found resolution is recomputed on every call
(see the counterexample theorem). -/
theorem claim_C3_found_results_cached_immutable (cfg : Config) (fs fs₂ : FS) (pd pd₂ : Bool)
    (request : String) (paths : List String) (isMain : Bool)
    (fieldsOpt extsOpt : Option (List String)) (cache : Cache) (v : Res)
    (h : (findPath cfg fs pd request paths isMain fieldsOpt extsOpt cache).1 = .ok v)
    (hv : resNeqEmpty v = true) :
    findPath cfg fs₂ pd₂ request paths isMain fieldsOpt extsOpt
      (findPath cfg fs pd request paths isMain fieldsOpt extsOpt cache).2.1 =
      (.ok v, (findPath cfg fs pd request paths isMain fieldsOpt extsOpt cache).2.1, []) :=
  findPath_cache_hit cfg fs₂ pd₂ request paths isMain fieldsOpt extsOpt _ v
    (findPath_writes_cache cfg fs pd request paths isMain fieldsOpt extsOpt cache v h hv)

/-- C3 witness: `/w/m.js` resolves under `fsW3`; repeating the call on top
of the resulting cache — even against the empty filesystem `fsNone` — is
a pure hit returning the same path with the cache unchanged. -/
theorem claim_C3_witness :
    findPath cfgStd fsNone false "m" ["/w"] false none none
      (findPath cfgStd fsW3 false "m" ["/w"] false none none []).2.1 =
      (.ok (.str "/w/m.js"),
        (findPath cfgStd fsW3 false "m" ["/w"] false none none []).2.1, []) :=
  claim_C3_found_results_cached_immutable cfgStd fsW3 fsNone false false "m" ["/w"] false
    none none [] (.str "/w/m.js") (by decide) (by decide)

end FindPathModel
